import Mathlib

/-!
# Verification of the InSpace contracts (space / motherspace / plugin launcher)

Shallow embedding of the ink! contracts in `contracts/space/lib.rs`,
`contracts/motherspace/lib.rs` and `contracts/plugins/posts/launcher/lib.rs`.

Modelling conventions:
* `AccountId`, `Hash`, `Timestamp`, `Balance` and 4-byte plugin ids are
  represented by `Nat` (only equality and, for timestamps/balances, order is
  used by the code).
* `Mapping<K, V>` storage fields become functions `Nat → Option V`;
  `Lazy<T>` fields that the constructor always sets become plain fields
  (for counters the `get_or_default` zero matches `Nat` zero).
* Machine arithmetic: `checked_add` (panics on overflow) is modelled with an
  explicit bound check; `saturating_add` / `saturating_mul` clamp at the
  bound.  `u32` bound is `2^32`, `u64` bound is `2^64`.
* Fallible messages return `Outcome err state`: `ok` carries the poststate,
  `err` a typed error (in ink! a returned `Err` reverts all storage writes,
  so no poststate is carried), and `trap` models a panic (`expect`/`unwrap`
  failure), which likewise rolls back the whole transaction.
* Cross-contract calls (value transfers, plugin launches, attach calls) are
  modelled by explicit environment parameters giving each call's result; the
  best-effort `add_space_member` / `remove_space_member` notifications to the
  motherspace mutate only motherspace storage and have their results ignored
  by the space, so they do not appear in the space-local state transition.
-/

namespace InSpace

/-- Bound of `u32` values. -/
def U32 : Nat := 2 ^ 32

/-- Bound of `u64` values. -/
def U64 : Nat := 2 ^ 64

/-- Rust `checked_add` at a given bound: `none` models the arithmetic panic
(`expect`) that aborts the whole transaction. -/
def checked_add (bound a b : Nat) : Option Nat :=
  if a + b < bound then some (a + b) else none

/-- Rust `saturating_add` at a given bound. -/
def saturating_add (bound a b : Nat) : Nat :=
  min (a + b) (bound - 1)

/-- Rust `saturating_mul` at a given bound. -/
def saturating_mul (bound a b : Nat) : Nat :=
  min (a * b) (bound - 1)

/-- `Mapping::insert`: point update of a map modelled as a function. -/
def minsert {β : Type} (m : Nat → Option β) (k : Nat) (v : β) : Nat → Option β :=
  fun x => if x = k then some v else m x

/-- Result of a fallible contract message: `ok` poststate, `err` (reverted,
no poststate), or `trap` (panic, transaction aborted). -/
inductive Outcome (ε α : Type) where
  | ok (a : α)
  | err (e : ε)
  | trap

/-! ## Space contract: data model (`contracts/space/lib.rs`) -/

/-- `const SECS_PER_DAY: u64 = 24 * 60 * 60` -/
def SECS_PER_DAY : Nat := 24 * 60 * 60

/-- `const MAX_PENDING_REQUESTS: u64 = 500` -/
def MAX_PENDING_REQUESTS : Nat := 500

/-- `enum SpaceError` (the `OwnableError` wrapper is omitted: the
owner-gating modifiers are outside the modelled message bodies). -/
inductive SpaceError where
  | custom (msg : String)
  | unAuthorized
  | memberExisted (who : Nat)
  | insufficientPayment
  | cannotRefundPayment (who : Nat) (requestId : Nat)
  | notActiveMember
  | memberNotFound
  | pluginNotFound
deriving DecidableEq

/-- `enum RegistrationType` -/
inductive RegistrationType where
  | payToJoin
  | requestToJoin
  | inviteOnly
deriving DecidableEq

/-- `enum Pricing` -/
inductive Pricing where
  | free
  | oneTimePaid (price : Nat)
  | subscription (price : Nat) (duration : Nat)
deriving DecidableEq

/-- `struct SpaceConfig` -/
structure SpaceConfig where
  registration : RegistrationType
  pricing : Pricing
deriving DecidableEq

/-- `struct MemberInfo`; `next_renewal_at`: `none` = non-expiring,
`some 0` = member already left, `some (t+1)` = expiring at that time. -/
structure MemberInfo where
  name : Option String
  next_renewal_at : Option Nat
  joined_at : Nat
deriving DecidableEq

/-- `struct MembershipRequest` -/
structure MembershipRequest where
  who : Nat
  paid : Nat
  requested_at : Nat
  approved : Option Bool
deriving DecidableEq

/-- `enum MemberStatus` -/
inductive MemberStatus where
  | none
  | active
  | inactive
  | left
deriving DecidableEq

/-- `struct ApprovalSubmissionResult` -/
structure ApprovalSubmissionResult where
  approved : Nat
  rejected : Nat
  not_found : Nat
deriving DecidableEq

/-- Space storage (the membership/request part used by the modelled
messages; plugin storage and the profile are not needed by any claim). -/
structure Space where
  config : SpaceConfig
  members_nonce : Nat
  members : Nat → Option MemberInfo
  index_to_member : Nat → Option Nat
  requests : Nat → Option MembershipRequest
  registrant_to_request : Nat → Option Nat
  pending_requests : List Nat
  requests_nonce : Nat

/-- `member_status`: pure function of the stored `next_renewal_at` and the
current block time (`now`); performs no storage write by construction. -/
def member_status (s : Space) (now : Nat) (who : Nat) : MemberStatus :=
  match s.members who with
  | some info =>
    match info.next_renewal_at with
    | some renewal_at =>
      if renewal_at > now then MemberStatus.active
      else if renewal_at > 0 then MemberStatus.inactive
      else MemberStatus.left
    | none => MemberStatus.active
  | none => MemberStatus.none

/-- `check_active_member`: `true` only for a currently active member. -/
def check_active_member (s : Space) (now : Nat) (id : Nat) : Bool :=
  match s.members id with
  | some info =>
    match info.next_renewal_at with
    | some renewal_at => renewal_at > now
    | none => true
  | none => false

/-- `is_member`: status is `Active` or `Inactive`. -/
def is_member (s : Space) (now : Nat) (who : Nat) : Bool :=
  member_status s now who = MemberStatus.active ||
    member_status s now who = MemberStatus.inactive

/-- `SpaceConfig::ttl`: `none` = non-expiring; `Subscription` lives for
`SECS_PER_DAY * duration` (u64 `saturating_mul`). -/
def SpaceConfig.ttl (c : SpaceConfig) : Option Nat :=
  match c.pricing with
  | Pricing.subscription _ duration => some (saturating_mul U64 SECS_PER_DAY duration)
  | _ => none

/-- The storage-writing part of `do_grant_membership`, after the
`next_renewal_at` timestamp has been computed (split out of
`do_grant_membership` only so the overflow check stays readable). -/
def do_grant_membership_write (s : Space) (now : Nat) (who : Nat)
    (next_renewal_at : Option Nat) : Outcome SpaceError Space :=
  if member_status s now who = MemberStatus.none then
    match checked_add U32 s.members_nonce 1 with
    | some next_members_nonce =>
      Outcome.ok { s with
        members := minsert s.members who
          { name := Option.none, next_renewal_at := next_renewal_at, joined_at := now },
        index_to_member := minsert s.index_to_member s.members_nonce who,
        members_nonce := next_members_nonce }
    | none => Outcome.trap
  else
    match s.members who with
    | some member_info =>
      Outcome.ok { s with
        members := minsert s.members who
          { member_info with next_renewal_at := next_renewal_at } }
    | none => Outcome.trap

/-- `do_grant_membership(who, ttl, register_space_member)`.  The trailing
best-effort `add_space_member` notification to the motherspace has its result
ignored and touches no space storage, so the space-local transition does not
depend on `register_space_member`. -/
def do_grant_membership (s : Space) (now : Nat) (who : Nat) (ttl : Option Nat)
    (_register_space_member : Bool) : Outcome SpaceError Space :=
  if member_status s now who = MemberStatus.active then
    Outcome.err (SpaceError.memberExisted who)
  else
    match ttl with
    | some v =>
      match checked_add U64 now v with
      | some t => do_grant_membership_write s now who (some t)
      | none => Outcome.trap
    | none => do_grant_membership_write s now who Option.none

/-- `pay_to_join(who)`: requires `PayToJoin` mode, rejects existing
(active or inactive) members, checks the transferred value against the
pricing and grants a membership with the config's ttl. -/
def pay_to_join (s : Space) (now caller transferred_value : Nat)
    (who : Option Nat) : Outcome SpaceError Space :=
  if s.config.registration = RegistrationType.payToJoin then
    let registrant := who.getD caller
    if is_member s now registrant then
      Outcome.err (SpaceError.memberExisted registrant)
    else
      let valid_payment : Bool :=
        match s.config.pricing with
        | Pricing.free => true
        | Pricing.oneTimePaid price => decide (transferred_value ≥ price)
        | Pricing.subscription price _ => decide (transferred_value ≥ price)
      if valid_payment then
        do_grant_membership s now registrant s.config.ttl true
      else Outcome.err SpaceError.insufficientPayment
  else Outcome.err (SpaceError.custom "Space doesn\x27t support pay to join!")

/-- `register_membership(who)`: requires `RequestToJoin` mode; enforces one
live pending request per account (reverse-index id tested against membership
in `pending_requests`) and the `MAX_PENDING_REQUESTS` soft cap before
insertion; escrows the payment into a new `MembershipRequest`. -/
def register_membership (s : Space) (now caller transferred_value : Nat)
    (who : Option Nat) : Outcome SpaceError Space :=
  if s.config.registration = RegistrationType.requestToJoin then
    let registrant := who.getD caller
    if is_member s now registrant then
      Outcome.err (SpaceError.memberExisted registrant)
    else
      let dup : Bool :=
        match s.registrant_to_request registrant with
        | some existing_request_id => s.pending_requests.contains existing_request_id
        | none => false
      if dup then
        Outcome.err (SpaceError.custom "The registrant is already having a pending request!")
      else if s.pending_requests.length ≤ MAX_PENDING_REQUESTS then
        match checked_add U32 s.requests_nonce 1 with
        | some next_request_id =>
          let valid_payment : Bool :=
            match s.config.pricing with
            | Pricing.free => true
            | Pricing.oneTimePaid price => decide (transferred_value ≥ price)
            | Pricing.subscription price _ => decide (transferred_value ≥ price)
          if valid_payment then
            Outcome.ok { s with
              requests_nonce := next_request_id,
              pending_requests := s.pending_requests ++ [next_request_id],
              requests := minsert s.requests next_request_id
                ⟨registrant, transferred_value, now, Option.none⟩,
              registrant_to_request :=
                minsert s.registrant_to_request registrant next_request_id }
          else Outcome.err SpaceError.insufficientPayment
        | none => Outcome.trap
      else Outcome.err (SpaceError.custom "Exceeding maximum of pending requests")
  else Outcome.err (SpaceError.custom "Space doesn\x27t support request to join!")

/-- `get_membership_request`: the live pending request of an account, if
any.  Outer `none` models the panic of the inner `unwrap` (a pending id with
no request row); `some none` means no live pending request; `some (some _)`
carries the id and the request. -/
def get_membership_request (s : Space) (who : Nat) :
    Option (Option (Nat × MembershipRequest)) :=
  match s.registrant_to_request who with
  | none => some Option.none
  | some request_id =>
    if s.pending_requests.contains request_id then
      match s.requests request_id with
      | some request => some (some (request_id, request))
      | none => Option.none
    else some Option.none

/-- The loop body of `submit_request_approvals`: processes the approval
entries in order, accumulating the submitted request ids and the
approved/rejected/not-found counters (u32 `saturating_add`).  `transfer_ok
who amount` gives the result of the native refund transfer. -/
def process_approvals (now : Nat) (transfer_ok : Nat → Nat → Bool)
    (approvals : List (Nat × Bool)) (s : Space) (submitted_ids : List Nat)
    (approved_count rejected_count not_found_count : Nat) :
    Outcome SpaceError (Space × List Nat × ApprovalSubmissionResult) :=
  match approvals with
  | [] => Outcome.ok (s, submitted_ids,
      ⟨approved_count, rejected_count, not_found_count⟩)
  | (who, approved) :: rest =>
    match get_membership_request s who with
    | Option.none => Outcome.trap
    | some Option.none =>
      process_approvals now transfer_ok rest s submitted_ids
        approved_count rejected_count (saturating_add U32 not_found_count 1)
    | some (some (request_id, request)) =>
      if approved then
        match do_grant_membership s now request.who s.config.ttl true with
        | Outcome.ok s1 =>
          process_approvals now transfer_ok rest
            { s1 with requests := (minsert s1.requests request_id
                { request with approved := some true }) }
            (submitted_ids ++ [request_id])
            (saturating_add U32 approved_count 1) rejected_count not_found_count
        | Outcome.err e => Outcome.err e
        | Outcome.trap => Outcome.trap
      else if transfer_ok request.who request.paid then
        process_approvals now transfer_ok rest
          { s with requests := (minsert s.requests request_id
              { request with approved := some false }) }
          (submitted_ids ++ [request_id])
          approved_count (saturating_add U32 rejected_count 1) not_found_count
      else Outcome.err (SpaceError.cannotRefundPayment request.who request_id)

/-- `submit_request_approvals(approvals)`: runs the processing loop, then —
only on success — removes every submitted request id from
`pending_requests` (`retain`). -/
def submit_request_approvals (s : Space) (now : Nat)
    (transfer_ok : Nat → Nat → Bool) (approvals : List (Nat × Bool)) :
    Outcome SpaceError (Space × ApprovalSubmissionResult) :=
  match process_approvals now transfer_ok approvals s [] 0 0 0 with
  | Outcome.ok (s1, submitted_ids, result) =>
    Outcome.ok ({ s1 with pending_requests :=
        s1.pending_requests.filter (fun x => ¬ submitted_ids.contains x) },
      result)
  | Outcome.err e => Outcome.err e
  | Outcome.trap => Outcome.trap

/-- `update_member_info(name)`: requires `check_active_member` of the
caller, validates the display-name byte length (Rust `String::len`) to lie
in 3..=30, then rewrites the caller's row with the new name. -/
def update_member_info (s : Space) (now caller : Nat) (name : Option String) :
    Outcome SpaceError Space :=
  if check_active_member s now caller then
    let name_ok : Outcome SpaceError Unit :=
      match name with
      | some new_name =>
        if new_name.utf8ByteSize < 3 then
          Outcome.err (SpaceError.custom "Display name must be a least 3 characters")
        else if 30 < new_name.utf8ByteSize then
          Outcome.err (SpaceError.custom "Display name must be at most 30 characters")
        else Outcome.ok ()
      | none => Outcome.ok ()
    match name_ok with
    | Outcome.ok _ =>
      match s.members caller with
      | some member_info =>
        Outcome.ok { s with
          members := minsert s.members caller { member_info with name := name } }
      | none => Outcome.trap
    | Outcome.err e => Outcome.err e
    | Outcome.trap => Outcome.trap
  else Outcome.err SpaceError.notActiveMember

/-! ## MotherSpace contract (`contracts/motherspace/lib.rs`) -/

/-- `enum Error` of the motherspace (the attach-failure `Custom` message is
`format!`-built from the callee error; it is modelled by a fixed prefix). -/
inductive MotherError where
  | custom (msg : String)
  | unAuthorized
  | spaceNotFound
  | pluginNotFound
  | pluginLaunchFailed
  | pluginIdExisted
deriving DecidableEq

/-- `struct Pagination<SpaceId>` (`SpacesPage`). -/
structure SpacesPage where
  items : List Nat
  from_ : Nat
  per_page : Nat
  has_next_page : Bool
  total : Nat
deriving DecidableEq

/-- The `for index in from..hi { if let Some(x) = get(index) { push x } }`
collection loop shared by `list_spaces` (and `list_members`). -/
def collect_range {β : Type} (get : Nat → Option β) (lo hi : Nat) : List β :=
  (List.range' lo (hi - lo)).filterMap get

/-- `list_spaces(from, per_page)`: note the source computes `last_position =
from saturating_add per_page` *before* clamping `per_page` to 50, so the
clamp only affects the echoed `per_page` field, not the item window. -/
def list_spaces (index_to_space : Nat → Option Nat) (spaces_count : Nat)
    (from_ per_page : Nat) : SpacesPage :=
  let last_position := saturating_add U32 from_ per_page
  let per_page' := min per_page 50
  { items := collect_range index_to_space from_ (min last_position spaces_count),
    from_ := from_,
    per_page := per_page',
    has_next_page := decide (last_position < spaces_count),
    total := spaces_count }

/-- Results of the cross-contract calls made while installing plugins:
`launchers` is the motherspace's `ids_to_plugin_launchers` mapping;
`launch launcher space` is the value returned by `Launcher::launch`;
`attach space plugins` is the value returned by `Space::attach_plugins`. -/
structure InstallEnv where
  launchers : Nat → Option Nat
  launch : Nat → Nat → Except MotherError Nat
  attach : Nat → List (Nat × Nat) → Except MotherError Unit

/-- The launch loop of `install_plugins_impl`: plugin ids with no registered
launcher are silently skipped; a failed `launch` call of a resolved launcher
aborts with `PluginLaunchFailed`. -/
def install_plugins_loop (env : InstallEnv) (space_id : Nat)
    (plugins : List Nat) (deployed_plugins : List (Nat × Nat)) :
    Except MotherError (List (Nat × Nat)) :=
  match plugins with
  | [] => Except.ok deployed_plugins
  | plugin_id :: rest =>
    match env.launchers plugin_id with
    | none => install_plugins_loop env space_id rest deployed_plugins
    | some launcher_address =>
      match env.launch launcher_address space_id with
      | Except.ok plugin_address =>
        install_plugins_loop env space_id rest
          (deployed_plugins ++ [(plugin_id, plugin_address)])
      | Except.error _ => Except.error MotherError.pluginLaunchFailed

/-- `install_plugins_impl(space_id, plugins)`: launch loop, then a single
`attach_plugins` call (skipped when nothing was deployed); an attach failure
turns into a `Custom` error. -/
def install_plugins_impl (env : InstallEnv) (space_id : Nat)
    (plugins : List Nat) : Except MotherError (List (Nat × Nat)) :=
  match install_plugins_loop env space_id plugins [] with
  | Except.error e => Except.error e
  | Except.ok deployed_plugins =>
    if deployed_plugins.isEmpty then Except.ok deployed_plugins
    else
      match env.attach space_id deployed_plugins with
      | Except.ok _ => Except.ok deployed_plugins
      | Except.error _ => Except.error (MotherError.custom "Attach plugin failed")

/-- The plugin-installation step of `deploy_new_space`: the source calls
`install_plugins_impl(..).unwrap()`, so an installation error panics and
aborts the whole deploy transaction (modelled by `none`). -/
def deploy_new_space_plugins (env : InstallEnv) (space_id : Nat)
    (plugins : Option (List Nat)) : Option (List (Nat × Nat)) :=
  match plugins with
  | some plugin_ids =>
    match install_plugins_impl env space_id plugin_ids with
    | Except.ok deployed => some deployed
    | Except.error _ => Option.none
  | none => some []

/-- The expected attachment list for claim C7: the `(kind, address)` pairs
of exactly those requested kinds that resolve to a registered launcher,
paired with the address their launch returns. -/
def resolved_launches (env : InstallEnv) (space_id : Nat)
    (plugins : List Nat) : List (Nat × Nat) :=
  plugins.filterMap (fun plugin_id =>
    match env.launchers plugin_id with
    | some launcher_address =>
      match env.launch launcher_address space_id with
      | Except.ok plugin_address => some (plugin_id, plugin_address)
      | Except.error _ => Option.none
    | none => Option.none)

/-! ## Versioned code logs (motherspace / posts launcher) -/

/-- The space-code log slice of the motherspace storage. -/
structure MotherSpaceCodes where
  space_codes : Nat → Option Nat
  space_codes_nonce : Nat

/-- `upgrade_space_code_impl`: appends at the incremented nonce (`none`
models the `checked_add` panic). -/
def upgrade_space_code_impl (s : MotherSpaceCodes) (new_space_code : Nat) :
    Option MotherSpaceCodes :=
  match checked_add U32 s.space_codes_nonce 1 with
  | some next_space_code_version =>
    some { space_codes := minsert s.space_codes next_space_code_version new_space_code,
           space_codes_nonce := next_space_code_version }
  | none => Option.none

/-- `latest_space_code_impl`: the entry at the current nonce (`none` models
the `unwrap` panic on an absent entry). -/
def latest_space_code_impl (s : MotherSpaceCodes) : Option Nat :=
  s.space_codes s.space_codes_nonce

/-- `MotherSpace::new`: starts from the default (empty) storage and appends
the initial space code. -/
def motherspace_new (space_code : Nat) : Option MotherSpaceCodes :=
  upgrade_space_code_impl { space_codes := fun _ => Option.none, space_codes_nonce := 0 }
    space_code

/-- States of the motherspace code log reachable from the constructor,
indexed by the list of code hashes appended so far. -/
inductive MotherSpaceReachable : List Nat → MotherSpaceCodes → Prop where
  | ctor (h : Nat) (s : MotherSpaceCodes) :
      motherspace_new h = some s → MotherSpaceReachable [h] s
  | upgrade (hs : List Nat) (s : MotherSpaceCodes) (h : Nat) (s' : MotherSpaceCodes) :
      MotherSpaceReachable hs s → upgrade_space_code_impl s h = some s' →
      MotherSpaceReachable (hs ++ [h]) s'

/-- The plugin-code log slice of the posts launcher storage
(`contracts/plugins/posts/launcher/lib.rs`). -/
structure PostsLauncherCodes where
  plugin_codes : Nat → Option Nat
  plugin_codes_nonce : Nat

/-- `upgrade_plugin_code_impl`: appends at the incremented nonce and returns
the new version (`none` models the `checked_add` panic). -/
def upgrade_plugin_code_impl (s : PostsLauncherCodes) (new_plugin_code : Nat) :
    Option (Nat × PostsLauncherCodes) :=
  match checked_add U32 s.plugin_codes_nonce 1 with
  | some next_plugin_code_version =>
    some (next_plugin_code_version,
      { plugin_codes := minsert s.plugin_codes next_plugin_code_version new_plugin_code,
        plugin_codes_nonce := next_plugin_code_version })
  | none => Option.none

/-- `latest_plugin_code_impl`: the entry at the current nonce (`none` models
the `unwrap` panic on an absent entry). -/
def latest_plugin_code_impl (s : PostsLauncherCodes) : Option Nat :=
  s.plugin_codes s.plugin_codes_nonce

/-- `PostsLauncher::new`: default storage plus the initial plugin code. -/
def posts_launcher_new (plugin_code : Nat) : Option PostsLauncherCodes :=
  (upgrade_plugin_code_impl
    { plugin_codes := fun _ => Option.none, plugin_codes_nonce := 0 } plugin_code).map
    Prod.snd

/-- States of the launcher code log reachable from the constructor, indexed
by the list of code hashes appended so far. -/
inductive PostsLauncherReachable : List Nat → PostsLauncherCodes → Prop where
  | ctor (h : Nat) (s : PostsLauncherCodes) :
      posts_launcher_new h = some s → PostsLauncherReachable [h] s
  | upgrade (hs : List Nat) (s : PostsLauncherCodes) (h v : Nat) (s' : PostsLauncherCodes) :
      PostsLauncherReachable hs s → upgrade_plugin_code_impl s h = some (v, s') →
      PostsLauncherReachable (hs ++ [h]) s'

/-! ## Example states shared by the witnesses and counterexamples -/

/-- The empty map used to initialise storage in the example states. -/
def emptyMap {β : Type} : Nat → Option β := fun _ => Option.none

/-- Example state: a space (pay-to-join, free) whose only member, account 7,
has a row with `next_renewal_at = some 5` (expires at time 5). -/
def expiringSpace : Space where
  config := ⟨RegistrationType.payToJoin, Pricing.free⟩
  members_nonce := 1
  members := minsert emptyMap 7 ⟨Option.none, some 5, 0⟩
  index_to_member := minsert emptyMap 0 7
  requests := emptyMap
  registrant_to_request := emptyMap
  pending_requests := []
  requests_nonce := 0

/-- The status of the given account in the poststate of an outcome
(`none` when the call did not succeed). -/
def status_after (o : Outcome SpaceError Space) (now who : Nat) :
    Option MemberStatus :=
  match o with
  | Outcome.ok s => some (member_status s now who)
  | _ => Option.none

/-- Example state: a pay-to-join space with a zero-price, zero-duration
subscription pricing whose only member, account 7, has left
(`next_renewal_at = some 0`). -/
def leftSubZeroSpace : Space where
  config := ⟨RegistrationType.payToJoin, Pricing.subscription 0 0⟩
  members_nonce := 1
  members := minsert emptyMap 7 ⟨Option.none, some 0, 0⟩
  index_to_member := minsert emptyMap 0 7
  requests := emptyMap
  registrant_to_request := emptyMap
  pending_requests := []
  requests_nonce := 0

/-- Example state: a request-to-join space with 500 pending request ids
(`0..499`); account 7's reverse-index entry points at the finished request
600, which is not pending any more. -/
def pending500Space : Space where
  config := ⟨RegistrationType.requestToJoin, Pricing.free⟩
  members_nonce := 0
  members := emptyMap
  index_to_member := emptyMap
  requests := emptyMap
  registrant_to_request := minsert emptyMap 7 600
  pending_requests := List.range 500
  requests_nonce := 600

/-- Example state: like `pending500Space` but with 501 pending ids. -/
def pending501Space : Space where
  config := ⟨RegistrationType.requestToJoin, Pricing.free⟩
  members_nonce := 0
  members := emptyMap
  index_to_member := emptyMap
  requests := emptyMap
  registrant_to_request := minsert emptyMap 7 600
  pending_requests := List.range 501
  requests_nonce := 600

/-- Example state: a request-to-join space with one live pending request
(id 1) by account 7 with 10 units escrowed. -/
def pendingReqSpace : Space where
  config := ⟨RegistrationType.requestToJoin, Pricing.free⟩
  members_nonce := 0
  members := emptyMap
  index_to_member := emptyMap
  requests := minsert emptyMap 1 ⟨7, 10, 0, Option.none⟩
  registrant_to_request := minsert emptyMap 7 1
  pending_requests := [1]
  requests_nonce := 1

/-- Example environment for plugin installation: kind 1 resolves to
launcher 11, which launches successfully (returning address `100 + space`);
no other kind is registered; attaching always succeeds. -/
def exampleInstallEnv : InstallEnv where
  launchers := minsert emptyMap 1 11
  launch := fun la sp =>
    if la = 11 then Except.ok (100 + sp) else Except.error MotherError.pluginNotFound
  attach := fun _ _ => Except.ok ()

/-- Example environment where kind 1 (launcher 11) launches fine but
kind 2's registered launcher 22 fails to launch. -/
def failingInstallEnv : InstallEnv where
  launchers := minsert (minsert emptyMap 1 11) 2 22
  launch := fun la sp =>
    if la = 11 then Except.ok (100 + sp) else Except.error MotherError.pluginLaunchFailed
  attach := fun _ _ => Except.ok ()

/-- A dense `index_to_space` mapping: positions `0..n-1` are populated. -/
def denseSpaces (n : Nat) : Nat → Option Nat :=
  fun i => if i < n then some i else Option.none

/-! ## Theorem for claim C1 -/

/-- **C1.** `member_status` is a pure function of the stored
`next_renewal_at` and the current block time (it takes only the storage and
`now` as inputs and writes nothing): if no ledger row exists the status is
`None`; if `next_renewal_at` is `None` the status is `Active`; `Some t` with
`t > now` gives `Active`; `Some t` with `0 < t ≤ now` gives `Inactive`; and
`Some 0` gives `Left`. -/
theorem c1_member_status_cases (s : Space) (now who : Nat) :
    (s.members who = Option.none → member_status s now who = MemberStatus.none) ∧
    (∀ mi, s.members who = some mi → mi.next_renewal_at = Option.none →
      member_status s now who = MemberStatus.active) ∧
    (∀ mi t, s.members who = some mi → mi.next_renewal_at = some t → t > now →
      member_status s now who = MemberStatus.active) ∧
    (∀ mi t, s.members who = some mi → mi.next_renewal_at = some t → 0 < t → t ≤ now →
      member_status s now who = MemberStatus.inactive) ∧
    (∀ mi, s.members who = some mi → mi.next_renewal_at = some 0 →
      member_status s now who = MemberStatus.left) := by
  refine ⟨fun h => by simp [member_status, h],
    fun mi h hn => by simp [member_status, h, hn],
    fun mi t h hn ht => by simp [member_status, h, hn, ht],
    fun mi t h hn ht0 htle => by
      have h1 : ¬ t > now := by omega
      simp [member_status, h, hn, h1, ht0],
    fun mi h hn => by simp [member_status, h, hn]⟩

/-- Witness for C1 at a concrete state: a member row expiring at time 5
observed at time 10 is `Inactive`. -/
theorem c1_member_status_cases_witness :
    expiringSpace.members 7 = some ⟨Option.none, some 5, 0⟩ ∧
    member_status expiringSpace 10 7 = MemberStatus.inactive := by
  refine ⟨rfl, ?_⟩
  exact (c1_member_status_cases expiringSpace 10 7).2.2.2.1 ⟨Option.none, some 5, 0⟩ 5 rfl rfl
    (by decide) (by decide)

/-! ## Theorem for claim C2 -/

/-- **C2.** `grant_membership` behaviour by current status (absent
arithmetic overflow): `Active` fails with `MemberExisted`; `None` creates a
new row with `joined_at = now`, inserts the account at the next member index
and increments the member count by exactly 1; `Inactive` or `Left` only
overwrites `next_renewal_at` on the existing row, leaving the member count
and the member index unchanged (the resulting state differs from `s` in the
`members` map alone), so re-granting after a leave never creates a second
member-index row. -/
theorem c2_do_grant_membership_by_status (s : Space) (now who : Nat)
    (ttl : Option Nat) (reg : Bool)
    (httl : ∀ v, ttl = some v → now + v < U64)
    (hnonce : s.members_nonce + 1 < U32) :
    (member_status s now who = MemberStatus.active →
      do_grant_membership s now who ttl reg =
        Outcome.err (SpaceError.memberExisted who)) ∧
    (member_status s now who = MemberStatus.none →
      do_grant_membership s now who ttl reg = Outcome.ok { s with
        members := minsert s.members who
          ⟨Option.none, ttl.map (fun v => now + v), now⟩,
        index_to_member := minsert s.index_to_member s.members_nonce who,
        members_nonce := s.members_nonce + 1 }) ∧
    (member_status s now who = MemberStatus.inactive ∨
        member_status s now who = MemberStatus.left →
      ∀ old, s.members who = some old →
        do_grant_membership s now who ttl reg = Outcome.ok { s with
          members := minsert s.members who
            { old with next_renewal_at := ttl.map (fun v => now + v) } }) := by
  refine ⟨?_, ?_, ?_⟩
  · intro h
    simp [do_grant_membership, h]
  · intro h
    have hne : member_status s now who ≠ MemberStatus.active := by simp [h]
    cases ttl with
    | none =>
      simp [do_grant_membership, hne, do_grant_membership_write, h,
        checked_add, hnonce]
    | some v =>
      have hv : now + v < U64 := httl v rfl
      simp [do_grant_membership, hne, checked_add, hv,
        do_grant_membership_write, h, hnonce]
  · intro h old hold
    have hne : member_status s now who ≠ MemberStatus.active := by
      rcases h with h | h <;> simp [h]
    have hnn : member_status s now who ≠ MemberStatus.none := by
      rcases h with h | h <;> simp [h]
    cases ttl with
    | none =>
      simp [do_grant_membership, hne, do_grant_membership_write, hnn, hold]
    | some v =>
      have hv : now + v < U64 := httl v rfl
      simp [do_grant_membership, hne, checked_add, hv,
        do_grant_membership_write, hnn, hold]

/-- Witness for C2: in `expiringSpace` at time 3, granting to the active
member 7 fails with `MemberExisted`, and granting to the fresh account 9
with `ttl = 100` creates a row `⟨none, some 103, 3⟩` at member index 1 and
bumps the count to 2. -/
theorem c2_do_grant_membership_by_status_witness :
    do_grant_membership expiringSpace 3 7 (some 100) true =
      Outcome.err (SpaceError.memberExisted 7) ∧
    do_grant_membership expiringSpace 3 9 (some 100) true =
      Outcome.ok { expiringSpace with
        members := minsert expiringSpace.members 9 ⟨Option.none, some 103, 3⟩,
        index_to_member := minsert expiringSpace.index_to_member 1 9,
        members_nonce := 2 } := by
  constructor
  · exact (c2_do_grant_membership_by_status expiringSpace 3 7 (some 100) true
      (by intro v hv; cases hv; decide) (by decide)).1 (by decide)
  · exact (c2_do_grant_membership_by_status expiringSpace 3 9 (some 100) true
      (by intro v hv; cases hv; decide) (by decide)).2.1 (by decide)

/-! ## Shared lemmas about `do_grant_membership` and statuses -/

/-- A successful grant to an account with no ledger row creates the fresh
row and appends it to the member index. -/
theorem do_grant_membership_fresh (s : Space) (now who : Nat) (ttl : Option Nat)
    (reg : Bool) (h : member_status s now who = MemberStatus.none)
    (httl : ∀ v, ttl = some v → now + v < U64)
    (hnonce : s.members_nonce + 1 < U32) :
    do_grant_membership s now who ttl reg = Outcome.ok { s with
      members := minsert s.members who
        ⟨Option.none, ttl.map (fun v => now + v), now⟩,
      index_to_member := minsert s.index_to_member s.members_nonce who,
      members_nonce := s.members_nonce + 1 } := by
  have hne : member_status s now who ≠ MemberStatus.active := by simp [h]
  cases ttl with
  | none =>
    simp [do_grant_membership, hne, do_grant_membership_write, h, checked_add, hnonce]
  | some v =>
    have hv : now + v < U64 := httl v rfl
    simp [do_grant_membership, hne, checked_add, hv, do_grant_membership_write,
      h, hnonce]

/-- A successful grant to an account with an existing row (inactive or left)
only rewrites `next_renewal_at` on that row. -/
theorem do_grant_membership_existing (s : Space) (now who : Nat)
    (ttl : Option Nat) (reg : Bool) (old : MemberInfo)
    (hact : member_status s now who ≠ MemberStatus.active)
    (hnn : member_status s now who ≠ MemberStatus.none)
    (hold : s.members who = some old)
    (httl : ∀ v, ttl = some v → now + v < U64) :
    do_grant_membership s now who ttl reg = Outcome.ok { s with
      members := minsert s.members who
        { old with next_renewal_at := ttl.map (fun v => now + v) } } := by
  cases ttl with
  | none =>
    simp [do_grant_membership, hact, do_grant_membership_write, hnn, hold]
  | some v =>
    have hv : now + v < U64 := httl v rfl
    simp [do_grant_membership, hact, checked_add, hv, do_grant_membership_write,
      hnn, hold]

/-- An account whose status is not `None` has a ledger row. -/
theorem members_isSome_of_status_ne_none (s : Space) (now who : Nat)
    (h : member_status s now who ≠ MemberStatus.none) :
    ∃ old, s.members who = some old := by
  cases hm : s.members who with
  | none => exact absurd (by simp [member_status, hm]) h
  | some old => exact ⟨old, rfl⟩

/-- Any grant to a non-active account succeeds (absent overflow) and leaves
a row whose `next_renewal_at` is `now + ttl` (or `none`). -/
theorem do_grant_membership_row (s : Space) (now who : Nat) (ttl : Option Nat)
    (reg : Bool) (hact : member_status s now who ≠ MemberStatus.active)
    (httl : ∀ v, ttl = some v → now + v < U64)
    (hnonce : s.members_nonce + 1 < U32) :
    ∃ s', do_grant_membership s now who ttl reg = Outcome.ok s' ∧
      ∃ row, s'.members who = some row ∧
        row.next_renewal_at = ttl.map (fun v => now + v) := by
  by_cases hn : member_status s now who = MemberStatus.none
  · refine ⟨_, do_grant_membership_fresh s now who ttl reg hn httl hnonce,
      ⟨Option.none, ttl.map (fun v => now + v), now⟩, ?_, rfl⟩
    simp [minsert]
  · obtain ⟨old, hold⟩ := members_isSome_of_status_ne_none s now who hn
    refine ⟨_, do_grant_membership_existing s now who ttl reg old hact hn hold httl,
      { old with next_renewal_at := ttl.map (fun v => now + v) }, ?_, rfl⟩
    simp [minsert]

/-- `is_member = false` leaves exactly the statuses `None` and `Left`. -/
theorem status_of_not_is_member (s : Space) (now who : Nat)
    (h : is_member s now who = false) :
    member_status s now who = MemberStatus.none ∨
    member_status s now who = MemberStatus.left := by
  cases hst : member_status s now who <;> simp [is_member, hst] at h ⊢

/-- `is_member = false` rules out the `Active` status. -/
theorem not_active_of_not_is_member (s : Space) (now who : Nat)
    (h : is_member s now who = false) :
    member_status s now who ≠ MemberStatus.active := by
  rcases status_of_not_is_member s now who h with h1 | h1 <;> simp [h1]

/-! ## Theorem for claim C4 -/

/-- **C4.** `pay_to_join` requires `PayToJoin` mode and fails with
`MemberExisted` for an `Active` or `Inactive` account (`is_member`); `Free`
accepts any transferred value while `OneTimePaid(p)` and
`Subscription(p, _)` require `value ≥ p`, failing with
`InsufficientPayment` (an error carries no poststate — nothing is written);
on success the membership row has `next_renewal_at = none` unless the
pricing is `Subscription`, in which case the ttl is `days * 86400` seconds —
in particular a `OneTimePaid` (or `Free`) membership is `Active` at every
future time. -/
theorem c4_pay_to_join_rules (s : Space) (now caller tv : Nat)
    (who : Option Nat) (hnonce : s.members_nonce + 1 < U32) :
    (s.config.registration ≠ RegistrationType.payToJoin →
      pay_to_join s now caller tv who =
        Outcome.err (SpaceError.custom "Space doesn\x27t support pay to join!")) ∧
    (s.config.registration = RegistrationType.payToJoin →
      is_member s now (who.getD caller) = true →
      pay_to_join s now caller tv who =
        Outcome.err (SpaceError.memberExisted (who.getD caller))) ∧
    (s.config.registration = RegistrationType.payToJoin →
      is_member s now (who.getD caller) = false →
      (∀ p, s.config.pricing = Pricing.oneTimePaid p → tv < p →
        pay_to_join s now caller tv who = Outcome.err SpaceError.insufficientPayment) ∧
      (∀ p d, s.config.pricing = Pricing.subscription p d → tv < p →
        pay_to_join s now caller tv who = Outcome.err SpaceError.insufficientPayment) ∧
      ((s.config.pricing = Pricing.free ∨
          ∃ p, s.config.pricing = Pricing.oneTimePaid p ∧ p ≤ tv) →
        ∃ s', pay_to_join s now caller tv who = Outcome.ok s' ∧
          ∃ row, s'.members (who.getD caller) = some row ∧
            row.next_renewal_at = Option.none ∧
            ∀ t, member_status s' t (who.getD caller) = MemberStatus.active) ∧
      (∀ p d, s.config.pricing = Pricing.subscription p d → p ≤ tv →
        now + SECS_PER_DAY * d < U64 →
        ∃ s', pay_to_join s now caller tv who = Outcome.ok s' ∧
          ∃ row, s'.members (who.getD caller) = some row ∧
            row.next_renewal_at = some (now + SECS_PER_DAY * d))) := by
  refine ⟨?_, ?_, ?_⟩
  · intro h
    simp [pay_to_join, h]
  · intro hmode hmem
    simp [pay_to_join, hmode, hmem]
  · intro hmode hmem
    have hact := not_active_of_not_is_member s now (who.getD caller) hmem
    refine ⟨?_, ?_, ?_, ?_⟩
    · intro p hp hlt
      have hnp : ¬ p ≤ tv := by omega
      simp [pay_to_join, hmode, hmem, hp, hnp]
    · intro p d hp hlt
      have hnp : ¬ p ≤ tv := by omega
      simp [pay_to_join, hmode, hmem, hp, hnp]
    · intro hfree
      have httl : ∀ v, s.config.ttl = some v → now + v < U64 := by
        intro v hv
        rcases hfree with hp | ⟨p, hp, _⟩ <;>
          simp [SpaceConfig.ttl, hp] at hv
      obtain ⟨s', hok, row, hrow, hnext⟩ :=
        do_grant_membership_row s now (who.getD caller) s.config.ttl true hact
          httl hnonce
      have hcall : pay_to_join s now caller tv who =
          do_grant_membership s now (who.getD caller) s.config.ttl true := by
        rcases hfree with hp | ⟨p, hp, hple⟩ <;>
          simp [pay_to_join, hmode, hmem, hp, *]
      have hnone : row.next_renewal_at = Option.none := by
        rcases hfree with hp | ⟨p, hp, _⟩ <;>
          simpa [SpaceConfig.ttl, hp] using hnext
      refine ⟨s', by rw [hcall, hok], row, hrow, hnone, ?_⟩
      intro t
      simp [member_status, hrow, hnone]
    · intro p d hp hple hof
      have hsat : saturating_mul U64 SECS_PER_DAY d = SECS_PER_DAY * d := by
        have : SECS_PER_DAY * d ≤ U64 - 1 := by omega
        simp [saturating_mul, this]
      have httl : ∀ v, s.config.ttl = some v → now + v < U64 := by
        intro v hv
        simp [SpaceConfig.ttl, hp, hsat] at hv
        omega
      obtain ⟨s', hok, row, hrow, hnext⟩ :=
        do_grant_membership_row s now (who.getD caller) s.config.ttl true hact
          httl hnonce
      have hcall : pay_to_join s now caller tv who =
          do_grant_membership s now (who.getD caller) s.config.ttl true := by
        simp [pay_to_join, hmode, hmem, hp, hple]
      refine ⟨s', by rw [hcall, hok], row, hrow, ?_⟩
      rw [hnext]
      simp [SpaceConfig.ttl, hp, hsat]

/-- Witness for C4: in `expiringSpace` (pay-to-join, free pricing) at time 3
the active member 7 is rejected with `MemberExisted`. -/
theorem c4_pay_to_join_rules_witness :
    pay_to_join expiringSpace 3 7 0 (some 7) =
      Outcome.err (SpaceError.memberExisted 7) := by
  exact (c4_pay_to_join_rules expiringSpace 3 7 0 (some 7) (by decide)).2.1
    (by decide) (by decide)

/-! ## Theorems for claim C9 -/

/-- Counterexample to C9 as stated: in `leftSubZeroSpace` (pay-to-join,
`Subscription{price: 0, duration: 0}`) account 7 has `Left` status and its
`pay_to_join` at time 5 succeeds — but the rejoined account is `Inactive`
(its new `next_renewal_at` is `now + 0 = now`), not `Active` as the claim
states. -/
theorem c9_counterexample :
    member_status leftSubZeroSpace 5 7 = MemberStatus.left ∧
    status_after (pay_to_join leftSubZeroSpace 5 7 0 (some 7)) 5 7 =
      some MemberStatus.inactive := by
  exact ⟨rfl, rfl⟩

/-- **C9 (amended).** A `Left` account (`next_renewal_at = some 0`) is not
blocked by the `is_member` check of `pay_to_join`: in `PayToJoin` mode with
sufficient payment (and absent timestamp overflow) its `pay_to_join`
succeeds and only overwrites `next_renewal_at` on the existing row — the
member count and the member index are unchanged.  The account is `Active`
again immediately when the pricing is `Free` or `OneTimePaid`, or
`Subscription` with a positive duration (with a zero-duration subscription
it is immediately expired). -/
theorem c9_pay_to_join_after_leave (s : Space) (now caller tv : Nat)
    (who : Option Nat) (old : MemberInfo)
    (hmode : s.config.registration = RegistrationType.payToJoin)
    (hleft : member_status s now (who.getD caller) = MemberStatus.left)
    (hold : s.members (who.getD caller) = some old)
    (hpay : match s.config.pricing with
      | Pricing.free => True
      | Pricing.oneTimePaid p => p ≤ tv
      | Pricing.subscription p _ => p ≤ tv)
    (httl : ∀ v, s.config.ttl = some v → now + v < U64) :
    pay_to_join s now caller tv who = Outcome.ok { s with
      members := minsert s.members (who.getD caller)
        { old with next_renewal_at := s.config.ttl.map (fun v => now + v) } } ∧
    ((s.config.pricing = Pricing.free ∨
        ∃ p, s.config.pricing = Pricing.oneTimePaid p) →
      status_after (pay_to_join s now caller tv who) now (who.getD caller) =
        some MemberStatus.active) ∧
    (∀ p d, s.config.pricing = Pricing.subscription p d → 0 < d →
      status_after (pay_to_join s now caller tv who) now (who.getD caller) =
        some MemberStatus.active) := by
  have hmem : is_member s now (who.getD caller) = false := by
    simp [is_member, hleft]
  have hact : member_status s now (who.getD caller) ≠ MemberStatus.active := by
    simp [hleft]
  have hnn : member_status s now (who.getD caller) ≠ MemberStatus.none := by
    simp [hleft]
  have hgrant := do_grant_membership_existing s now (who.getD caller)
    s.config.ttl true old hact hnn hold httl
  have hcall : pay_to_join s now caller tv who =
      do_grant_membership s now (who.getD caller) s.config.ttl true := by
    cases hp : s.config.pricing with
    | free => simp [pay_to_join, hmode, hmem, hp]
    | oneTimePaid p =>
      have hple : p ≤ tv := by rw [hp] at hpay; exact hpay
      simp [pay_to_join, hmode, hmem, hp, hple]
    | subscription p d =>
      have hple : p ≤ tv := by rw [hp] at hpay; exact hpay
      simp [pay_to_join, hmode, hmem, hp, hple]
  refine ⟨by rw [hcall, hgrant], ?_, ?_⟩
  · intro hfree
    have httlnone : s.config.ttl = Option.none := by
      rcases hfree with hp | ⟨p, hp⟩ <;> simp [SpaceConfig.ttl, hp]
    rw [hcall, hgrant, httlnone]
    simp [status_after, member_status, minsert]
  · intro p d hp hd
    have httlsome : s.config.ttl = some (saturating_mul U64 SECS_PER_DAY d) := by
      simp [SpaceConfig.ttl, hp]
    have hpos : 0 < saturating_mul U64 SECS_PER_DAY d := by
      have h1 : 0 < SECS_PER_DAY * d := Nat.mul_pos (by decide) hd
      have h2 : 0 < U64 - 1 := by decide
      rw [saturating_mul]
      exact lt_min h1 h2
    rw [hcall, hgrant, httlsome]
    have hgt : now + saturating_mul U64 SECS_PER_DAY d > now := by omega
    simp [status_after, member_status, minsert, hgt]

/-- Witness for C9 (amended): in `leftSubZeroSpace` at time 5, the left
account 7 rejoins successfully with the row rewritten in place. -/
theorem c9_pay_to_join_after_leave_witness :
    pay_to_join leftSubZeroSpace 5 7 0 (some 7) = Outcome.ok
      { leftSubZeroSpace with
        members := minsert leftSubZeroSpace.members 7
          { name := Option.none, next_renewal_at := some 5, joined_at := 0 } } := by
  exact (c9_pay_to_join_after_leave leftSubZeroSpace 5 7 0 (some 7)
    ⟨Option.none, some 0, 0⟩ rfl rfl rfl (by exact Nat.le_refl 0)
    (by intro v hv; cases hv; decide)).1

/-! ## Theorem for claim C5 -/

/-- **C5.** `register_membership` checks the pending-queue cap before
insertion: with the other preconditions met (mode `RequestToJoin`, not a
member, no live pending request, valid payment, no nonce overflow) the
registration is accepted exactly when `pending_requests` has at most 500
entries at call entry, growing the queue by one — so it can reach 501
entries — while a call finding more than 500 (in particular 501) entries
fails.  The one-live-request-per-account rule is decided by membership of
the account's reverse-index request id in `pending_requests`, not by mere
existence of the reverse-index entry: a stale entry whose id is no longer
pending does not block, a pending one does. -/
theorem c5_register_membership_cap (s : Space) (now caller tv : Nat)
    (who : Option Nat)
    (hmode : s.config.registration = RegistrationType.requestToJoin)
    (hmem : is_member s now (who.getD caller) = false)
    (hpay : match s.config.pricing with
      | Pricing.free => True
      | Pricing.oneTimePaid p => p ≤ tv
      | Pricing.subscription p _ => p ≤ tv)
    (hnonce : s.requests_nonce + 1 < U32) :
    ((∀ id, s.registrant_to_request (who.getD caller) = some id →
        id ∉ s.pending_requests) →
      s.pending_requests.length ≤ MAX_PENDING_REQUESTS →
      register_membership s now caller tv who = Outcome.ok { s with
        requests_nonce := s.requests_nonce + 1,
        pending_requests := s.pending_requests ++ [s.requests_nonce + 1],
        requests := minsert s.requests (s.requests_nonce + 1)
          ⟨who.getD caller, tv, now, Option.none⟩,
        registrant_to_request := minsert s.registrant_to_request
          (who.getD caller) (s.requests_nonce + 1) } ∧
      (s.pending_requests ++ [s.requests_nonce + 1]).length =
        s.pending_requests.length + 1) ∧
    ((∀ id, s.registrant_to_request (who.getD caller) = some id →
        id ∉ s.pending_requests) →
      MAX_PENDING_REQUESTS < s.pending_requests.length →
      register_membership s now caller tv who =
        Outcome.err (SpaceError.custom "Exceeding maximum of pending requests")) ∧
    (∀ id, s.registrant_to_request (who.getD caller) = some id →
      id ∈ s.pending_requests →
      register_membership s now caller tv who =
        Outcome.err (SpaceError.custom "The registrant is already having a pending request!")) := by
  refine ⟨?_, ?_, ?_⟩
  · intro hdup hcap
    constructor
    · cases hr : s.registrant_to_request (who.getD caller) with
      | none =>
        cases hp : s.config.pricing with
        | free =>
          simp [register_membership, hmode, hmem, hr, hcap, checked_add,
            hnonce, hp]
        | oneTimePaid p =>
          have hple : p ≤ tv := by rw [hp] at hpay; exact hpay
          simp [register_membership, hmode, hmem, hr, hcap, checked_add,
            hnonce, hp, hple]
        | subscription p d =>
          have hple : p ≤ tv := by rw [hp] at hpay; exact hpay
          simp [register_membership, hmode, hmem, hr, hcap, checked_add,
            hnonce, hp, hple]
      | some id =>
        have hni : id ∉ s.pending_requests := hdup id hr
        cases hp : s.config.pricing with
        | free =>
          simp [register_membership, hmode, hmem, hr, hni, hcap, checked_add,
            hnonce, hp]
        | oneTimePaid p =>
          have hple : p ≤ tv := by rw [hp] at hpay; exact hpay
          simp [register_membership, hmode, hmem, hr, hni, hcap, checked_add,
            hnonce, hp, hple]
        | subscription p d =>
          have hple : p ≤ tv := by rw [hp] at hpay; exact hpay
          simp [register_membership, hmode, hmem, hr, hni, hcap, checked_add,
            hnonce, hp, hple]
    · simp
  · intro hdup hcap
    have hc : ¬ s.pending_requests.length ≤ MAX_PENDING_REQUESTS := by omega
    cases hr : s.registrant_to_request (who.getD caller) with
    | none => simp [register_membership, hmode, hmem, hr, hc]
    | some id =>
      have hni : id ∉ s.pending_requests := hdup id hr
      simp [register_membership, hmode, hmem, hr, hni, hc]
  · intro id hr hin
    simp [register_membership, hmode, hmem, hr, hin]

set_option maxRecDepth 100000 in
/-- Witness for C5: with 500 pending ids and a stale reverse-index entry
(request 600, no longer pending) account 7's registration succeeds and the
queue reaches 501 entries; with 501 pending ids the same call fails. -/
theorem c5_register_membership_cap_witness :
    register_membership pending500Space 0 7 0 (some 7) = Outcome.ok
      { pending500Space with
        requests_nonce := 601,
        pending_requests := List.range 500 ++ [601],
        requests := minsert pending500Space.requests 601 ⟨7, 0, 0, Option.none⟩,
        registrant_to_request := minsert pending500Space.registrant_to_request 7 601 } ∧
    register_membership pending501Space 0 7 0 (some 7) =
      Outcome.err (SpaceError.custom "Exceeding maximum of pending requests") := by
  constructor
  · exact ((c5_register_membership_cap pending500Space 0 7 0 (some 7) rfl
      (by decide) trivial (by decide)).1
      (by intro id h; cases h; decide) (by decide)).1
  · exact (c5_register_membership_cap pending501Space 0 7 0 (some 7) rfl
      (by decide) trivial (by decide)).2.1
      (by intro id h; cases h; decide) (by decide)

/-! ## Theorems for claim C6 -/

/-- Counterexample to C6 as stated: in `expiringSpace` at time 10 account 7
is `Inactive` (its row expired at time 5), and `update_member_info` with the
valid 3-character name "abc" fails with `NotActiveMember` — the claim
asserts it succeeds for `Inactive` callers. -/
theorem c6_counterexample :
    member_status expiringSpace 10 7 = MemberStatus.inactive ∧
    update_member_info expiringSpace 10 7 (some "abc") =
      Outcome.err SpaceError.notActiveMember := by
  exact ⟨rfl, rfl⟩

/-- `check_active_member` holds exactly for the `Active` status. -/
theorem check_active_member_iff_active (s : Space) (now id : Nat) :
    check_active_member s now id = true ↔
      member_status s now id = MemberStatus.active := by
  cases hm : s.members id with
  | none => simp [check_active_member, member_status, hm]
  | some info =>
    cases hr : info.next_renewal_at with
    | none => simp [check_active_member, member_status, hm, hr]
    | some t =>
      by_cases ht : t > now
      · simp [check_active_member, member_status, hm, hr, ht]
      · by_cases h0 : t > 0 <;>
          simp [check_active_member, member_status, hm, hr, ht, h0]

/-- **C6 (amended).** `update_member_info` succeeds only for callers whose
status is `Active` (`check_active_member`), rewriting the caller's row with
the new name when it is absent or 3 to 30 bytes long; it fails with a
length error when a provided name is shorter than 3 or longer than 30
bytes, and fails with `NotActiveMember` for every other status — including
`Inactive` — not only for `None` and `Left`. -/
theorem c6_update_member_info_rules (s : Space) (now caller : Nat)
    (name : Option String) :
    (member_status s now caller ≠ MemberStatus.active →
      update_member_info s now caller name =
        Outcome.err SpaceError.notActiveMember) ∧
    (member_status s now caller = MemberStatus.active →
      (name = Option.none ∨
        ∃ n, name = some n ∧ 3 ≤ n.utf8ByteSize ∧ n.utf8ByteSize ≤ 30) →
      ∀ mi, s.members caller = some mi →
        update_member_info s now caller name = Outcome.ok { s with
          members := minsert s.members caller { mi with name := name } }) ∧
    (member_status s now caller = MemberStatus.active →
      ∀ n, name = some n → n.utf8ByteSize < 3 →
        update_member_info s now caller name =
          Outcome.err (SpaceError.custom "Display name must be a least 3 characters")) ∧
    (member_status s now caller = MemberStatus.active →
      ∀ n, name = some n → 30 < n.utf8ByteSize →
        update_member_info s now caller name =
          Outcome.err (SpaceError.custom "Display name must be at most 30 characters")) := by
  refine ⟨?_, ?_, ?_, ?_⟩
  · intro h
    have hc : check_active_member s now caller = false := by
      cases hb : check_active_member s now caller
      · rfl
      · exact absurd ((check_active_member_iff_active s now caller).mp hb) h
    simp [update_member_info, hc]
  · intro h hname mi hmi
    have hc : check_active_member s now caller = true :=
      (check_active_member_iff_active s now caller).mpr h
    rcases hname with hn | ⟨n, hn, hlo, hhi⟩
    · subst hn
      simp [update_member_info, hc, hmi]
    · subst hn
      have h1 : ¬ n.utf8ByteSize < 3 := by omega
      have h2 : ¬ 30 < n.utf8ByteSize := by omega
      simp [update_member_info, hc, hmi, h1, h2]
  · intro h n hn hshort
    subst hn
    have hc : check_active_member s now caller = true :=
      (check_active_member_iff_active s now caller).mpr h
    simp [update_member_info, hc, hshort]
  · intro h n hn hlong
    subst hn
    have hc : check_active_member s now caller = true :=
      (check_active_member_iff_active s now caller).mpr h
    have h1 : ¬ n.utf8ByteSize < 3 := by omega
    simp [update_member_info, hc, h1, hlong]

/-- Witness for C6 (amended): in `expiringSpace` at time 3 the active
member 7 updates its display name to "abc" successfully, and at time 10
(expired, `Inactive`) the same call fails with `NotActiveMember`. -/
theorem c6_update_member_info_rules_witness :
    update_member_info expiringSpace 3 7 (some "abc") = Outcome.ok
      { expiringSpace with
        members := minsert expiringSpace.members 7
          { name := some "abc", next_renewal_at := some 5, joined_at := 0 } } ∧
    update_member_info expiringSpace 10 7 (some "abc") =
      Outcome.err SpaceError.notActiveMember := by
  constructor
  · exact (c6_update_member_info_rules expiringSpace 3 7 (some "abc")).2.1
      (by decide) (Or.inr ⟨"abc", rfl, by decide, by decide⟩)
      ⟨Option.none, some 5, 0⟩ rfl
  · exact (c6_update_member_info_rules expiringSpace 10 7 (some "abc")).1
      (by decide)

/-! ## Shared lemmas about the approvals loop -/

/-- A successful membership grant does not touch `pending_requests`. -/
theorem do_grant_membership_write_pending (s : Space) (now who : Nat)
    (nra : Option Nat) (s' : Space)
    (h : do_grant_membership_write s now who nra = Outcome.ok s') :
    s'.pending_requests = s.pending_requests := by
  unfold do_grant_membership_write at h
  split at h
  · split at h
    · cases h; rfl
    · cases h
  · split at h
    · cases h; rfl
    · cases h

/-- A successful `do_grant_membership` does not touch `pending_requests`. -/
theorem do_grant_membership_pending (s : Space) (now who : Nat)
    (ttl : Option Nat) (reg : Bool) (s' : Space)
    (h : do_grant_membership s now who ttl reg = Outcome.ok s') :
    s'.pending_requests = s.pending_requests := by
  unfold do_grant_membership at h
  split at h
  · cases h
  · split at h
    · split at h
      · exact do_grant_membership_write_pending _ _ _ _ _ h
      · cases h
    · exact do_grant_membership_write_pending _ _ _ _ _ h

/-- The approvals loop never modifies `pending_requests` (removal happens
only after it, in `submit_request_approvals`). -/
theorem process_approvals_pending (now : Nat) (tok : Nat → Nat → Bool) :
    ∀ (approvals : List (Nat × Bool)) (s : Space) (ids : List Nat) (a r n : Nat)
      (s1 : Space) (ids1 : List Nat) (res : ApprovalSubmissionResult),
    process_approvals now tok approvals s ids a r n = Outcome.ok (s1, ids1, res) →
    s1.pending_requests = s.pending_requests := by
  intro approvals
  induction approvals with
  | nil =>
    intro s ids a r n s1 ids1 res h
    simp only [process_approvals] at h
    cases h
    rfl
  | cons x rest ih =>
    intro s ids a r n s1 ids1 res h
    obtain ⟨who, approved⟩ := x
    simp only [process_approvals] at h
    cases hget : get_membership_request s who with
    | none => rw [hget] at h; cases h
    | some og =>
      rw [hget] at h
      cases og with
      | none => exact ih s ids a r _ s1 ids1 res h
      | some pr =>
        obtain ⟨rid, req⟩ := pr
        cases approved with
        | true =>
          simp only [if_pos] at h
          cases hdg : do_grant_membership s now req.who s.config.ttl true with
          | ok s0 =>
            rw [hdg] at h
            have h1 := ih _ _ _ _ _ s1 ids1 res h
            have h2 := do_grant_membership_pending s now req.who s.config.ttl
              true s0 hdg
            exact h1.trans h2
          | err e => rw [hdg] at h; cases h
          | trap => rw [hdg] at h; cases h
        | false =>
          simp only [Bool.false_eq_true, if_false] at h
          cases htr : tok req.who req.paid with
          | true =>
            rw [htr, if_pos rfl] at h
            have h1 := ih _ _ _ _ _ s1 ids1 res h
            exact h1
          | false => rw [htr] at h; cases h

/-- Splitting the approvals loop at an append: the tail runs from the
accumulator state the prefix produced. -/
theorem process_approvals_append (now : Nat) (tok : Nat → Nat → Bool)
    (l1 l2 : List (Nat × Bool)) :
    ∀ (s : Space) (ids : List Nat) (a r n : Nat),
    process_approvals now tok (l1 ++ l2) s ids a r n =
      match process_approvals now tok l1 s ids a r n with
      | Outcome.ok (s1, ids1, res) =>
        process_approvals now tok l2 s1 ids1 res.approved res.rejected res.not_found
      | Outcome.err e => Outcome.err e
      | Outcome.trap => Outcome.trap := by
  induction l1 with
  | nil =>
    intro s ids a r n
    simp only [List.nil_append, process_approvals]
  | cons x rest ih =>
    intro s ids a r n
    obtain ⟨who, approved⟩ := x
    simp only [List.cons_append, process_approvals]
    cases hget : get_membership_request s who with
    | none => rfl
    | some og =>
      cases og with
      | none => exact ih s ids a r _
      | some pr =>
        obtain ⟨rid, req⟩ := pr
        cases approved with
        | true =>
          simp only [if_pos]
          cases hdg : do_grant_membership s now req.who s.config.ttl true with
          | ok s0 => exact ih _ _ _ _ _
          | err e => rfl
          | trap => rfl
        | false =>
          simp only [Bool.false_eq_true, if_false]
          cases htr : tok req.who req.paid with
          | true => exact ih _ _ _ _ _
          | false => rfl

/-! ## Theorem for claim C3 -/

/-- **C3.** `submit_request_approvals` is atomic: when the refund transfer
of a rejected entry fails (the prefix before it having processed cleanly),
the whole call returns `CannotRefundPayment(account, request_id)`
identifying that entry — an error carries no poststate, so no request id is
removed from `pending_requests` by that call.  When the whole call returns
`Ok`, the loop itself left `pending_requests` untouched and exactly the
submitted (processed) request ids are filtered out at the end.  An entry
whose account has no live pending request is counted as `not_found` and
processing continues unharmed. -/
theorem c3_submit_request_approvals_atomicity :
    (∀ (s : Space) (now : Nat) (tok : Nat → Nat → Bool)
        (pre post : List (Nat × Bool)) (who : Nat) (s1 : Space)
        (ids : List Nat) (res : ApprovalSubmissionResult) (rid : Nat)
        (req : MembershipRequest),
      process_approvals now tok pre s [] 0 0 0 = Outcome.ok (s1, ids, res) →
      get_membership_request s1 who = some (some (rid, req)) →
      tok req.who req.paid = false →
      submit_request_approvals s now tok (pre ++ (who, false) :: post) =
        Outcome.err (SpaceError.cannotRefundPayment req.who rid)) ∧
    (∀ (s : Space) (now : Nat) (tok : Nat → Nat → Bool)
        (approvals : List (Nat × Bool)) (s1 : Space) (ids : List Nat)
        (res : ApprovalSubmissionResult),
      process_approvals now tok approvals s [] 0 0 0 = Outcome.ok (s1, ids, res) →
      s1.pending_requests = s.pending_requests ∧
      submit_request_approvals s now tok approvals = Outcome.ok
        ({ s1 with pending_requests :=
            s.pending_requests.filter (fun x => ¬ ids.contains x) }, res)) ∧
    (∀ (s : Space) (now : Nat) (tok : Nat → Nat → Bool) (who : Nat) (b : Bool)
        (rest : List (Nat × Bool)) (ids : List Nat) (a r n : Nat),
      get_membership_request s who = some Option.none →
      process_approvals now tok ((who, b) :: rest) s ids a r n =
        process_approvals now tok rest s ids a r (saturating_add U32 n 1)) := by
  refine ⟨?_, ?_, ?_⟩
  · intro s now tok pre post who s1 ids res rid req hpre hget htok
    unfold submit_request_approvals
    rw [process_approvals_append, hpre]
    simp only [process_approvals, hget, htok, Bool.false_eq_true, if_false]
  · intro s now tok approvals s1 ids res h
    have hp := process_approvals_pending now tok approvals s [] 0 0 0 s1 ids res h
    refine ⟨hp, ?_⟩
    unfold submit_request_approvals
    rw [h]
    show Outcome.ok ({ s1 with pending_requests :=
        s1.pending_requests.filter (fun x => ¬ ids.contains x) }, res) = _
    rw [hp]
  · intro s now tok who b rest ids a r n hget
    simp only [process_approvals, hget]

/-- Witness for C3: in `pendingReqSpace` with a transfer environment that
always fails, rejecting account 7's live request 1 makes the whole call
fail with `CannotRefundPayment(7, 1)`; an empty batch returns `Ok` and
filters nothing; and an entry for the member-less account 9 of
`expiringSpace` is skipped as not-found. -/
theorem c3_submit_request_approvals_atomicity_witness :
    submit_request_approvals pendingReqSpace 0 (fun _ _ => false) [(7, false)] =
      Outcome.err (SpaceError.cannotRefundPayment 7 1) ∧
    submit_request_approvals pendingReqSpace 0 (fun _ _ => false) [] =
      Outcome.ok ({ pendingReqSpace with pending_requests :=
        (pendingReqSpace.pending_requests.filter
          (fun x => ¬ ([] : List Nat).contains x)) }, ⟨0, 0, 0⟩) ∧
    process_approvals 0 (fun _ _ => false) [(9, true)] expiringSpace [] 0 0 0 =
      process_approvals 0 (fun _ _ => false) [] expiringSpace [] 0 0
        (saturating_add U32 0 1) := by
  refine ⟨?_, ?_, ?_⟩
  · exact c3_submit_request_approvals_atomicity.1 pendingReqSpace 0
      (fun _ _ => false) [] [] 7 pendingReqSpace [] ⟨0, 0, 0⟩ 1
      ⟨7, 10, 0, Option.none⟩ rfl rfl rfl
  · exact (c3_submit_request_approvals_atomicity.2.1 pendingReqSpace 0
      (fun _ _ => false) [] pendingReqSpace [] ⟨0, 0, 0⟩ rfl).2
  · exact c3_submit_request_approvals_atomicity.2.2 expiringSpace 0
      (fun _ _ => false) 9 true [] [] 0 0 0 rfl

/-! ## Shared lemmas about the plugin installation loop -/

/-- If every resolved launcher launches successfully, the launch loop
returns the accumulated list extended by exactly the resolved pairs. -/
theorem install_plugins_loop_ok (env : InstallEnv) (space_id : Nat) :
    ∀ (plugins : List Nat) (acc : List (Nat × Nat)),
    (∀ pid la, pid ∈ plugins → env.launchers pid = some la →
      ∃ addr, env.launch la space_id = Except.ok addr) →
    install_plugins_loop env space_id plugins acc =
      Except.ok (acc ++ resolved_launches env space_id plugins) := by
  intro plugins
  induction plugins with
  | nil =>
    intro acc hok
    simp [install_plugins_loop, resolved_launches]
  | cons pid rest ih =>
    intro acc hok
    cases hla : env.launchers pid with
    | none =>
      have hrest : ∀ p la, p ∈ rest → env.launchers p = some la →
          ∃ addr, env.launch la space_id = Except.ok addr :=
        fun p la hp => hok p la (List.mem_cons_of_mem pid hp)
      rw [show install_plugins_loop env space_id (pid :: rest) acc =
          install_plugins_loop env space_id rest acc by
        simp [install_plugins_loop, hla]]
      rw [ih acc hrest]
      simp [resolved_launches, List.filterMap_cons, hla]
    | some la =>
      obtain ⟨addr, haddr⟩ := hok pid la (List.mem_cons_self pid rest) hla
      have hrest : ∀ p la, p ∈ rest → env.launchers p = some la →
          ∃ addr, env.launch la space_id = Except.ok addr :=
        fun p la hp => hok p la (List.mem_cons_of_mem pid hp)
      rw [show install_plugins_loop env space_id (pid :: rest) acc =
          install_plugins_loop env space_id rest (acc ++ [(pid, addr)]) by
        simp [install_plugins_loop, hla, haddr]]
      rw [ih (acc ++ [(pid, addr)]) hrest]
      simp [resolved_launches, List.filterMap_cons, hla, haddr]

/-- If some requested kind resolves to a launcher whose launch fails, the
launch loop fails with `PluginLaunchFailed`. -/
theorem install_plugins_loop_fail (env : InstallEnv) (space_id : Nat) :
    ∀ (plugins : List Nat) (acc : List (Nat × Nat)),
    (∃ pid, pid ∈ plugins ∧ ∃ la, env.launchers pid = some la ∧
      ∃ e, env.launch la space_id = Except.error e) →
    install_plugins_loop env space_id plugins acc =
      Except.error MotherError.pluginLaunchFailed := by
  intro plugins
  induction plugins with
  | nil =>
    intro acc ⟨pid, hmem, _⟩
    exact absurd hmem (List.not_mem_nil pid)
  | cons q rest ih =>
    intro acc ⟨pid, hmem, la, hla, e, he⟩
    cases hq : env.launchers q with
    | none =>
      have hpid : pid ∈ rest := by
        rcases List.mem_cons.mp hmem with hEq | h
        · subst hEq
          rw [hq] at hla
          cases hla
        · exact h
      rw [show install_plugins_loop env space_id (q :: rest) acc =
          install_plugins_loop env space_id rest acc by
        simp [install_plugins_loop, hq]]
      exact ih acc ⟨pid, hpid, la, hla, e, he⟩
    | some la0 =>
      cases hl0 : env.launch la0 space_id with
      | error e0 =>
        simp [install_plugins_loop, hq, hl0]
      | ok addr =>
        have hpid : pid ∈ rest := by
          rcases List.mem_cons.mp hmem with hEq | h
          · subst hEq
            rw [hq] at hla
            cases hla
            rw [hl0] at he
            cases he
          · exact h
        rw [show install_plugins_loop env space_id (q :: rest) acc =
            install_plugins_loop env space_id rest (acc ++ [(q, addr)]) by
          simp [install_plugins_loop, hq, hl0]]
        exact ih (acc ++ [(q, addr)]) ⟨pid, hpid, la, hla, e, he⟩

/-! ## Theorem for claim C7 -/

/-- **C7.** During `deploy_new_space`, a requested plugin kind with no
registered launcher is silently skipped (the loop step ignores it) rather
than failing the deploy; when every resolved launcher launches successfully
(and the attach call succeeds, or nothing was deployed), the returned
attached-plugin list is exactly the `(kind, address)` pairs of the kinds
that resolved to a registered launcher; and if any resolved launcher's
launch returns an error, `install_plugins_impl` fails with
`PluginLaunchFailed` and the deploy aborts (its `unwrap` panics). -/
theorem c7_deploy_plugin_attachment (env : InstallEnv) (space_id : Nat)
    (plugins : List Nat) :
    (∀ pid rest acc, env.launchers pid = Option.none →
      install_plugins_loop env space_id (pid :: rest) acc =
        install_plugins_loop env space_id rest acc) ∧
    ((∀ pid la, pid ∈ plugins → env.launchers pid = some la →
        ∃ addr, env.launch la space_id = Except.ok addr) →
      (resolved_launches env space_id plugins = [] ∨
        ∃ u, env.attach space_id (resolved_launches env space_id plugins) =
          Except.ok u) →
      install_plugins_impl env space_id plugins =
        Except.ok (resolved_launches env space_id plugins) ∧
      deploy_new_space_plugins env space_id (some plugins) =
        some (resolved_launches env space_id plugins)) ∧
    ((∃ pid, pid ∈ plugins ∧ ∃ la, env.launchers pid = some la ∧
        ∃ e, env.launch la space_id = Except.error e) →
      install_plugins_impl env space_id plugins =
        Except.error MotherError.pluginLaunchFailed ∧
      deploy_new_space_plugins env space_id (some plugins) = Option.none) := by
  refine ⟨?_, ?_, ?_⟩
  · intro pid rest acc hla
    simp [install_plugins_loop, hla]
  · intro hok hattach
    have hloop := install_plugins_loop_ok env space_id plugins [] hok
    rw [List.nil_append] at hloop
    have himpl : install_plugins_impl env space_id plugins =
        Except.ok (resolved_launches env space_id plugins) := by
      unfold install_plugins_impl
      rw [hloop]
      rcases hattach with hnil | ⟨u, hu⟩
      · simp [hnil]
      · by_cases hempty : (resolved_launches env space_id plugins).isEmpty
        · simp [hempty]
        · simp [hempty, hu]
    exact ⟨himpl, by simp [deploy_new_space_plugins, himpl]⟩
  · intro hfail
    have hloop := install_plugins_loop_fail env space_id plugins [] hfail
    have himpl : install_plugins_impl env space_id plugins =
        Except.error MotherError.pluginLaunchFailed := by
      unfold install_plugins_impl
      rw [hloop]
    exact ⟨himpl, by simp [deploy_new_space_plugins, himpl]⟩

/-- Witness for C7: deploying on space 5 with kinds `[1, 2]` — kind 1
registered (launcher 11), kind 2 unregistered — attaches exactly
`[(1, 105)]`; in the failing environment (kind 2's launcher 22 errors) the
whole installation aborts. -/
theorem c7_deploy_plugin_attachment_witness :
    deploy_new_space_plugins exampleInstallEnv 5 (some [1, 2]) = some [(1, 105)] ∧
    deploy_new_space_plugins failingInstallEnv 5 (some [1, 2]) = Option.none := by
  constructor
  · have h := ((c7_deploy_plugin_attachment exampleInstallEnv 5 [1, 2]).2.1
      (by
        intro pid la hin hla
        rcases List.mem_cons.mp hin with hEq | hin2
        · subst hEq
          simp only [exampleInstallEnv, minsert, emptyMap] at hla
          cases hla
          exact ⟨105, rfl⟩
        · rcases List.mem_cons.mp hin2 with hEq | hin3
          · subst hEq
            simp [exampleInstallEnv, minsert, emptyMap] at hla
          · exact absurd hin3 (List.not_mem_nil pid))
      (Or.inr ⟨(), rfl⟩)).2
    exact h.trans (by rfl)
  · exact ((c7_deploy_plugin_attachment failingInstallEnv 5 [1, 2]).2.2
      ⟨2, by simp, 22, rfl, MotherError.pluginLaunchFailed, rfl⟩).2

/-! ## Shared lemmas about the pagination window -/

/-- A `filterMap` over a contiguous range where every position is populated
keeps the full range length. -/
theorem filterMap_range'_length {β : Type} (get : Nat → Option β) :
    ∀ (n lo : Nat), (∀ i, lo ≤ i → i < lo + n → (get i).isSome) →
    ((List.range' lo n).filterMap get).length = n := by
  intro n
  induction n with
  | zero => intro lo _; rfl
  | succ m ih =>
    intro lo h
    rw [List.range'_succ, List.filterMap_cons]
    have hlo : (get lo).isSome := h lo (Nat.le_refl lo) (by omega)
    cases hg : get lo with
    | none => rw [hg] at hlo; cases hlo
    | some b =>
      have htail := ih (lo + 1) (fun i h1 h2 => h i (by omega) (by omega))
      simp [htail]

/-- Length of the populated collection window. -/
theorem collect_range_length {β : Type} (get : Nat → Option β) (lo hi : Nat)
    (h : ∀ i, lo ≤ i → i < hi → (get i).isSome) :
    (collect_range get lo hi).length = hi - lo := by
  unfold collect_range
  apply filterMap_range'_length
  intro i h1 h2
  exact h i h1 (by omega)

/-! ## Theorems for claim C8 -/

/-- Counterexample to C8 as stated: over 51 densely deployed instances,
`list_spaces(from = 0, per_page = 51)` returns 51 items — the claimed
at-most-50-items bound fails because `last_position` is computed before
`per_page` is clamped to 50. -/
theorem c8_counterexample :
    50 < (list_spaces (denseSpaces 51) 51 0 51).items.length := by
  decide

/-- **C8 (amended).** `list_spaces` pages over the dense `instances` array:
the returned items are the populated positions in
`[from, min (from + per_page) count)` — computed with the *unclamped*
`per_page`, so a page can exceed 50 items; only the echoed `per_page` field
is clamped to 50 — and `has_next_page = (from + per_page < count)`.  Over a
dense prefix the page length is `min (from + per_page) count - from`; in
particular over 25 instances `(from = 0, per_page = 10)` yields 10 items
with a next page and `(from = 20, per_page = 10)` yields 5 items without
one (see the witness). -/
theorem c8_list_spaces_pagination (get : Nat → Option Nat)
    (count from_ pp : Nat) (hcount : count < U32) :
    (list_spaces get count from_ pp).per_page = min pp 50 ∧
    (list_spaces get count from_ pp).total = count ∧
    (list_spaces get count from_ pp).has_next_page =
      decide (from_ + pp < count) ∧
    (list_spaces get count from_ pp).items =
      collect_range get from_ (min (from_ + pp) count) ∧
    ((∀ i, from_ ≤ i → i < min (from_ + pp) count → (get i).isSome) →
      (list_spaces get count from_ pp).items.length =
        min (from_ + pp) count - from_) := by
  have hwin : min (saturating_add U32 from_ pp) count = min (from_ + pp) count := by
    rw [saturating_add, min_assoc, min_eq_right (show count ≤ U32 - 1 by omega)]
  refine ⟨rfl, rfl, ?_, ?_, ?_⟩
  · show decide (saturating_add U32 from_ pp < count) = decide (from_ + pp < count)
    rw [decide_eq_decide, saturating_add]
    rcases le_or_lt (from_ + pp) (U32 - 1) with hle | hgt
    · rw [min_eq_left hle]
    · rw [min_eq_right (Nat.le_of_lt hgt)]
      constructor
      · intro hlt
        exact absurd hlt (by omega)
      · intro hlt
        exact absurd hlt (by omega)
  · show collect_range get from_ (min (saturating_add U32 from_ pp) count) = _
    rw [hwin]
  · intro hdense
    show (collect_range get from_ (min (saturating_add U32 from_ pp) count)).length = _
    rw [hwin]
    exact collect_range_length get from_ (min (from_ + pp) count) hdense

/-- Witness for C8 (amended), on the spec's own example of 25 dense
instances: `(from = 0, per_page = 10)` gives 10 items and a next page;
`(from = 20, per_page = 10)` gives 5 items and no next page. -/
theorem c8_list_spaces_pagination_witness :
    (list_spaces (denseSpaces 25) 25 0 10).items.length = 10 ∧
    (list_spaces (denseSpaces 25) 25 0 10).has_next_page = true ∧
    (list_spaces (denseSpaces 25) 25 20 10).items.length = 5 ∧
    (list_spaces (denseSpaces 25) 25 20 10).has_next_page = false := by
  refine ⟨?_, ?_, ?_, ?_⟩
  · exact (c8_list_spaces_pagination (denseSpaces 25) 25 0 10 (by decide)).2.2.2.2
      (by
        intro i h1 h2
        have h3 : i < 25 := Nat.lt_of_lt_of_le h2 (min_le_right _ _)
        simp [denseSpaces, h3])
  · exact (c8_list_spaces_pagination (denseSpaces 25) 25 0 10 (by decide)).2.2.1
  · exact (c8_list_spaces_pagination (denseSpaces 25) 25 20 10 (by decide)).2.2.2.2
      (by
        intro i h1 h2
        have h3 : i < 25 := Nat.lt_of_lt_of_le h2 (min_le_right _ _)
        simp [denseSpaces, h3])
  · exact (c8_list_spaces_pagination (denseSpaces 25) 25 20 10 (by decide)).2.2.1

/-! ## Theorem for claim C10 -/

/-- **C10.** In every state of a versioned code log reachable from its
constructor — the motherspace's space-code log and the posts launcher's
plugin-code log alike — the nonce is at least 1 and the version map has an
entry at the nonce, because the constructor appends an initial code hash
and each upgrade appends at the incremented nonce; hence
`latest_space_code` / `latest_plugin_code` never hits its absent-value
`unwrap` and always returns the most recently appended code hash. -/
theorem c10_code_log_latest :
    (∀ (hs : List Nat) (s : MotherSpaceCodes), MotherSpaceReachable hs s →
      1 ≤ s.space_codes_nonce ∧
      latest_space_code_impl s = hs.getLast? ∧
      (latest_space_code_impl s).isSome = true) ∧
    (∀ (hs : List Nat) (s : PostsLauncherCodes), PostsLauncherReachable hs s →
      1 ≤ s.plugin_codes_nonce ∧
      latest_plugin_code_impl s = hs.getLast? ∧
      (latest_plugin_code_impl s).isSome = true) := by
  constructor
  · intro hs s hreach
    induction hreach with
    | ctor h s hnew =>
      have hc : checked_add U32 0 1 = some 1 := by decide
      simp only [motherspace_new, upgrade_space_code_impl, hc] at hnew
      cases hnew
      refine ⟨Nat.le_refl 1, ?_, ?_⟩
      · simp [latest_space_code_impl, minsert]
      · simp [latest_space_code_impl, minsert]
    | upgrade hs s h s' hreach1 hupg ih =>
      unfold upgrade_space_code_impl at hupg
      cases hc : checked_add U32 s.space_codes_nonce 1 with
      | none => rw [hc] at hupg; cases hupg
      | some nx =>
        have hnx : nx = s.space_codes_nonce + 1 := by
          unfold checked_add at hc
          split at hc
          · cases hc; rfl
          · cases hc
        rw [hc] at hupg
        cases hupg
        refine ⟨?_, ?_, ?_⟩
        · show 1 ≤ nx
          omega
        · rw [List.getLast?_append_cons]
          simp [latest_space_code_impl, minsert]
        · simp [latest_space_code_impl, minsert]
  · intro hs s hreach
    induction hreach with
    | ctor h s hnew =>
      have hc : checked_add U32 0 1 = some 1 := by decide
      simp only [posts_launcher_new, upgrade_plugin_code_impl, hc,
        Option.map] at hnew
      cases hnew
      refine ⟨Nat.le_refl 1, ?_, ?_⟩
      · simp [latest_plugin_code_impl, minsert]
      · simp [latest_plugin_code_impl, minsert]
    | upgrade hs s h v s' hreach1 hupg ih =>
      unfold upgrade_plugin_code_impl at hupg
      cases hc : checked_add U32 s.plugin_codes_nonce 1 with
      | none => rw [hc] at hupg; cases hupg
      | some nx =>
        have hnx : nx = s.plugin_codes_nonce + 1 := by
          unfold checked_add at hc
          split at hc
          · cases hc; rfl
          · cases hc
        rw [hc] at hupg
        cases hupg
        refine ⟨?_, ?_, ?_⟩
        · show 1 ≤ v
          omega
        · rw [List.getLast?_append_cons]
          simp [latest_plugin_code_impl, minsert]
        · simp [latest_plugin_code_impl, minsert]

/-- Witness for C10: the log states just after `MotherSpace::new(5, _)` and
`PostsLauncher::new(_, _, 7)` have nonce 1 and a defined latest code. -/
theorem c10_code_log_latest_witness :
    (1 ≤ ({ space_codes := minsert emptyMap 1 5, space_codes_nonce := 1 } :
        MotherSpaceCodes).space_codes_nonce ∧
      latest_space_code_impl
        { space_codes := minsert emptyMap 1 5, space_codes_nonce := 1 } =
          ([5] : List Nat).getLast? ∧
      (latest_space_code_impl
        { space_codes := minsert emptyMap 1 5, space_codes_nonce := 1 }).isSome =
          true) ∧
    (1 ≤ ({ plugin_codes := minsert emptyMap 1 7, plugin_codes_nonce := 1 } :
        PostsLauncherCodes).plugin_codes_nonce ∧
      latest_plugin_code_impl
        { plugin_codes := minsert emptyMap 1 7, plugin_codes_nonce := 1 } =
          ([7] : List Nat).getLast? ∧
      (latest_plugin_code_impl
        { plugin_codes := minsert emptyMap 1 7, plugin_codes_nonce := 1 }).isSome =
          true) := by
  constructor
  · exact c10_code_log_latest.1 [5]
      { space_codes := minsert emptyMap 1 5, space_codes_nonce := 1 }
      (MotherSpaceReachable.ctor 5 _ rfl)
  · exact c10_code_log_latest.2 [7]
      { plugin_codes := minsert emptyMap 1 7, plugin_codes_nonce := 1 }
      (PostsLauncherReachable.ctor 7 _ rfl)

end InSpace
